import Mathlib

/-!
Verification development for the "understood" Slack copy-writing bot.

All definitions are shallow embeddings of the TypeScript source:
  * `src/lib/agents/tools.ts`          — agent-loop tools (submit_variant / review_set)
  * `src/lib/agents/copy-generation.ts`— the tool-use agent loop
  * `src/lib/agents/learning.ts`       — merge protocol (reinforce / supersede)
  * `src/lib/agents/router.ts`         — two-tier router
  * `src/lib/commands.ts`              — parseCommand
  * `src/lib/agents/quality-gate.ts`   — deterministic quality gate
  * `src/lib/onboarding.ts`            — onboarding state machine
  * `src/lib/agents/normalize.ts`      — event normalizer
  * `src/lib/verify-slack.ts`          — webhook signature verification

JS strings are modelled as Lean `String` / `List Char` (inputs of interest are
ASCII, where JS `toLowerCase`, `trim`, `length` agree with the char-level
models below); JS numbers as `Nat`/`Int`/`ℚ`; `null`/`undefined` as `Option`;
database tables as `List` of row structures; LLM calls as oracle parameters.
-/

namespace Understood

/-! ### Character/string helpers (models of the JS string primitives used) -/

/-- Model of JS `String.prototype.toLowerCase` on the ASCII range
(`Char.toLower` lowercases exactly `A`–`Z`). -/
def lowerL (l : List Char) : List Char := l.map Char.toLower

/-- Model of JS `String.prototype.trim`: drop whitespace from both ends. -/
def trimL (l : List Char) : List Char :=
  ((l.dropWhile Char.isWhitespace).reverse.dropWhile Char.isWhitespace).reverse

/-- Model of JS `String.prototype.includes`: substring test. -/
def containsSub (hay pat : List Char) : Bool :=
  match hay with
  | [] => pat.isPrefixOf ([] : List Char)
  | _ :: rest => pat.isPrefixOf hay || containsSub rest pat

/-- `lowerTrim s` = `s.toLowerCase().trim()` as a char list. -/
def lowerTrim (s : String) : List Char := trimL (lowerL s.toList)

/-- `strIncludes s pat` = JS `s.includes(pat)`. -/
def strIncludes (s pat : String) : Bool := containsSub s.toList pat.toList

/-- Lowercased containment: `s.toLowerCase().includes(pat.toLowerCase())`. -/
def strIncludesCI (s pat : String) : Bool :=
  containsSub (lowerL s.toList) (lowerL pat.toList)

/-- Model of splitting on the regex `/\n\n+/` (runs of two or more
newlines), as used on `primary_text`.  Returns the chunks between
separators, in order, like JS `split`.  Structural on a fuel argument so the
kernel can evaluate it; every step consumes at least one char, so
`fuel = l.length` never runs out (`splitParas` below). -/
def splitParasGo : Nat → List Char → List (List Char)
  | _, [] => [[]]
  | 0, _ :: _ => [[]]
  | fuel + 1, c :: rest =>
    if c = '\n' ∧ rest.head? = some '\n' then
      [] :: splitParasGo fuel (rest.dropWhile (· = '\n'))
    else
      match splitParasGo fuel rest with
      | [] => [[c]]
      | p :: ps => (c :: p) :: ps

def splitParas (l : List Char) : List (List Char) := splitParasGo l.length l

/-- Model of splitting on the regex `/\s+/` followed by keeping words of
length > 3 (the token set of `jaccardSimilarity`).  Splitting on every
single whitespace char and filtering by length gives the same multiset of
kept words as splitting on whitespace runs, since the extra chunks are
empty. -/
def splitWsChunks : List Char → List (List Char)
  | [] => [[]]
  | c :: rest =>
    if c.isWhitespace then
      [] :: splitWsChunks rest
    else
      match splitWsChunks rest with
      | [] => [[c]]
      | p :: ps => (c :: p) :: ps

/-! ### Agent-loop data model (`src/lib/agents/types.ts`) -/

/-- One ad-copy variant (`CopyVariant`). -/
structure CopyVariant where
  angle : String
  headline : String
  description : String
  primary_text : String
  deriving DecidableEq, Repr

/-- The voice-profile fields read by the tools.  A JS `null`/missing phrase
list behaves identically to an empty list in the source (`if (xs && xs.length > 0)`),
so both are modelled as `[]`. -/
structure VoiceProfile where
  banned_phrases : List String
  mandatory_phrases : List String
  deriving Repr

/-- `AgentLoopState` (the `startTime` field is absorbed into the elapsed-time
oracle of the loop). -/
structure AgentLoopState where
  variants : List CopyVariant
  turns : Nat
  qualityIssues : List String
  reviewPassed : Bool
  deriving Repr

/-- `ToolResult` (the optional `data` payload carries no information the
claims need and is omitted). -/
structure ToolResult where
  success : Bool
  message : String
  deriving Repr

/-- `SubmitVariantInput`. -/
structure SubmitVariantInput where
  angle : String
  headline : String
  description : String
  primary_text : String
  deriving Repr

/-! ### `executeSubmitVariant` (`src/lib/agents/tools.ts`) -/

/-- The paragraph count used by the primary-text quality check:
`primary_text.split(/\n\n+/).filter(p => p.trim().length > 0).length`. -/
def paragraphCount (s : String) : Nat :=
  ((splitParas s.toList).filter (fun p => (trimL p).length > 0)).length

/-- The `issues` array accumulated by `executeSubmitVariant`, check by check
in source order. -/
def submitIssues (input : SubmitVariantInput) (state : AgentLoopState)
    (profile : VoiceProfile) : List String :=
  let fullTextLower :=
    lowerL (input.headline ++ " " ++ input.description ++ " " ++ input.primary_text).toList
  let lengthIssues :=
    if input.headline.length > 40 then
      [s!"Headline is {input.headline.length} chars - must be under 40."]
    else []
  let bannedIssues :=
    profile.banned_phrases.flatMap (fun banned =>
      if banned ≠ "" ∧ containsSub fullTextLower (lowerL banned.toList) then
        ["Banned phrase \"" ++ banned ++ "\" detected - remove it."]
      else [])
  let mandatoryIssues :=
    profile.mandatory_phrases.flatMap (fun phrase =>
      if phrase ≠ "" ∧ ¬ containsSub fullTextLower (lowerL phrase.toList) then
        ["Mandatory phrase \"" ++ phrase ++ "\" is missing - include it somewhere in the variant."]
      else [])
  let existingHeadlines := state.variants.map (fun v => lowerTrim v.headline)
  let dupIssues :=
    if existingHeadlines.contains (lowerTrim input.headline) then
      ["Headline \"" ++ input.headline ++ "\" duplicates an existing variant - make it unique."]
    else []
  let pc := paragraphCount input.primary_text
  let paraIssues :=
    if pc < 3 then
      [s!"Primary text has only {pc} paragraph(s) - need at least 3."]
    else []
  -- `if (pt.includes("```") || pt.includes("json") && pt.includes("{")) { if (pt.includes("```")) push }`
  let codeIssues :=
    if strIncludes input.primary_text "```" ∨
        (strIncludes input.primary_text "json" ∧ strIncludes input.primary_text "\x7b") then
      if strIncludes input.primary_text "```" then
        ["Code artifacts detected in primary text - write natural ad copy only."]
      else []
    else []
  lengthIssues ++ bannedIssues ++ mandatoryIssues ++ dupIssues ++ paraIssues ++ codeIssues

/-- Shallow embedding of `executeSubmitVariant`: validates one candidate
variant against the profile and the already-accepted variants, returning the
tool result together with the updated loop state (the source mutates `state`
in place). -/
def executeSubmitVariant (input : SubmitVariantInput) (state : AgentLoopState)
    (profile : VoiceProfile) : ToolResult × AgentLoopState :=
  let issues := submitIssues input state profile
  if issues ≠ [] then
    (⟨false, "Variant rejected. Fix these issues and resubmit."⟩,
     { state with qualityIssues := state.qualityIssues ++ issues })
  else
    let newVariants := state.variants ++
      [⟨input.angle, input.headline, input.description, input.primary_text⟩]
    -- JS `4 - state.variants.length` is signed (it reads "-1 remaining" past 4)
    let remaining : Int := 4 - (newVariants.length : Int)
    let accepted := newVariants.length
    (⟨true, s!"Variant {accepted} accepted. {remaining} remaining."⟩,
     { state with variants := newVariants })

/-! ### `jaccardSimilarity` and `executeReviewSet` (`src/lib/agents/tools.ts`) -/

/-- The token set of `jaccardSimilarity`:
`new Set(s.toLowerCase().split(/\s+/).filter(w => w.length > 3))`,
modelled as a duplicate-free list. -/
def jaccardWords (s : String) : List (List Char) :=
  ((splitWsChunks (lowerL s.toList)).filter (fun w => w.length > 3)).dedup

/-- Size of the intersection of the two token sets. -/
def jaccardInter (a b : String) : Nat :=
  ((jaccardWords a).filter (fun w => (jaccardWords b).contains w)).length

/-- `union = wordsA.size + wordsB.size - intersection`. -/
def jaccardUnion (a b : String) : Nat :=
  (jaccardWords a).length + (jaccardWords b).length - jaccardInter a b

/-- Shallow embedding of `jaccardSimilarity` (the JS float division is
modelled as exact rational division; for the magnitudes involved the
comparison against 0.7 agrees). -/
def jaccardSimilarity (a b : String) : ℚ :=
  if (jaccardWords a).length = 0 ∨ (jaccardWords b).length = 0 then 0
  else if jaccardUnion a b = 0 then 0
  else (jaccardInter a b : ℚ) / (jaccardUnion a b : ℚ)

/-- Executable decision of `jaccardSimilarity a b > 0.7`, cross-multiplied so
that it evaluates over `Nat` (rational division does not reduce in the
kernel); `jaccardGtThreshold_iff` proves it decides exactly the source's
comparison. -/
def jaccardGtThreshold (a b : String) : Bool :=
  if (jaccardWords a).length = 0 ∨ (jaccardWords b).length = 0 then false
  else if jaccardUnion a b = 0 then false
  else 10 * jaccardInter a b > 7 * jaccardUnion a b

/-- The `issues` array accumulated by `executeReviewSet`, check by check in
source order (angle distinctness, headline uniqueness, pairwise Jaccard
similarity, primary-text length floor). -/
def reviewIssues (vs : List CopyVariant) : List String :=
  let angles := vs.map (fun v => lowerTrim v.angle)
  let angleIssues :=
    if angles.dedup.length < 4 then
      ["Not all 4 angles are distinct. Each variant needs a unique value proposition angle."]
    else []
  let headlines := vs.map (fun v => lowerTrim v.headline)
  let headlineIssues :=
    if headlines.dedup.length < 4 then
      ["Duplicate headlines found. Every variant must have a unique headline."]
    else []
  let jaccardIssues :=
    vs.enum.flatMap (fun p =>
      vs.enum.flatMap (fun q =>
        if p.1 < q.1 ∧ jaccardGtThreshold p.2.primary_text q.2.primary_text then
          let i := p.1 + 1
          let j := q.1 + 1
          [s!"Variants {i} and {j} are too similar. Make them more distinct."]
        else []))
  let shortIssues :=
    vs.enum.flatMap (fun p =>
      if p.2.primary_text.length < 100 then
        let i := p.1 + 1
        [s!"Variant {i} primary text is too short. Write more substantive copy."]
      else [])
  angleIssues ++ headlineIssues ++ jaccardIssues ++ shortIssues

/-- Shallow embedding of `executeReviewSet` (its `input.confirm` flag is
unused in the source). -/
def executeReviewSet (_confirm : Bool) (state : AgentLoopState)
    (_profile : VoiceProfile) : ToolResult × AgentLoopState :=
  if state.variants.length < 4 then
    (⟨false, s!"Only {state.variants.length}/4 variants submitted. Submit all 4 before reviewing."⟩,
     state)
  else
    let issues := reviewIssues state.variants
    if issues ≠ [] then
      (⟨false, "Set review FAILED. Fix these issues."⟩,
       { state with qualityIssues := state.qualityIssues ++ issues })
    else
      (⟨true, "All 4 variants pass quality review. The set is complete."⟩,
       { state with reviewPassed := true })

/-! ### The copy-generation agent loop (`src/lib/agents/copy-generation.ts`)

The LLM is modelled as an oracle `responses : Nat → LLMResponse` giving the
assistant turn produced at each loop iteration, and the wall clock as an
oracle `elapsed : Nat → Nat` giving `Date.now() - startTime` at the top of
each iteration.  `fetch_exemplars` only reads the exemplar table and returns
data to the model; it never touches the loop state. -/

/-- One tool call in an assistant turn. -/
inductive ToolCall where
  | submit (input : SubmitVariantInput)
  | review (confirm : Bool)
  | fetchExemplars (count : Option Nat)
  | unknown (name : String)

/-- One assistant turn: either `stop_reason === "end_turn"` or a list of
`tool_use` blocks (possibly empty: "no tool calls - model is done"). -/
inductive LLMResponse where
  | endTurn
  | toolUse (calls : List ToolCall)

def MAX_TURNS : Nat := 12
def MAX_DURATION_MS : Nat := 100000

/-- Execute the `tool_use` blocks of one assistant turn in order
(the `switch` over `block.name` in the source). -/
def processToolCalls (profile : VoiceProfile) : List ToolCall → AgentLoopState → AgentLoopState
  | [], state => state
  | .submit input :: rest, state =>
      processToolCalls profile rest (executeSubmitVariant input state profile).2
  | .review confirm :: rest, state =>
      processToolCalls profile rest (executeReviewSet confirm state profile).2
  | .fetchExemplars _ :: rest, state => processToolCalls profile rest state
  | .unknown _ :: rest, state => processToolCalls profile rest state

/-- The `for (let turn = 0; turn < MAX_TURNS; turn++)` loop body;
`fuel = MAX_TURNS - turn`. -/
def agentLoopGo (profile : VoiceProfile) (elapsed : Nat → Nat)
    (responses : Nat → LLMResponse) : Nat → Nat → AgentLoopState → AgentLoopState
  | _, 0, state => state
  | turn, fuel + 1, state =>
    if elapsed turn > MAX_DURATION_MS then state
    else
      let state := { state with turns := turn + 1 }
      match responses turn with
      | .endTurn => state
      | .toolUse calls =>
        if calls.isEmpty then state
        else
          let state := processToolCalls profile calls state
          if state.reviewPassed then state
          else agentLoopGo profile elapsed responses (turn + 1) fuel state

/-- Run the agent loop from the initial state. -/
def runAgentLoop (profile : VoiceProfile) (elapsed : Nat → Nat)
    (responses : Nat → LLMResponse) : AgentLoopState :=
  agentLoopGo profile elapsed responses 0 MAX_TURNS
    { variants := [], turns := 0, qualityIssues := [], reviewPassed := false }

/-- The tail of `copyGenerationAgent`: graceful degradation
(`0` accepted variants is the only hard failure). -/
inductive CopyGenOutcome where
  | failure (msg : String)
  | variants (vs : List CopyVariant)
  deriving Repr

def copyGenerationOutcome (profile : VoiceProfile) (elapsed : Nat → Nat)
    (responses : Nat → LLMResponse) : CopyGenOutcome :=
  let state := runAgentLoop profile elapsed responses
  let variants := if state.variants.length > 0 then state.variants else []
  if variants.length = 0 then
    .failure "I had trouble generating copy for that file. Try uploading again or let me know if something specific went wrong."
  else
    .variants variants

/-! ### `parseCommand` (`src/lib/commands.ts`) and the Smart Router
(`src/lib/agents/router.ts`)

Database lookups made by the router are modelled as explicit parameters
(`customer` = the `customers` row for the acting user, `generation` = the
`source_type` of the generation row keyed by the thread timestamp), and the
two Sonnet classifiers as string-valued oracles.  `extractUrl` (a regex in
`src/lib/fetch-url-media.ts`) and the competitor-signal regex test are
likewise oracle parameters: every routing path the claims quantify over
returns before they are consulted. -/

/-- `parseCommand`: two-word commands first, then the first word against the
closed command list. -/
def parseCommand (text : String) : Option String :=
  let lower := String.mk (lowerTrim text)
  if lower = "new setup" then some "new_setup"
  else
    -- `lower.split(/\s/)[0]`
    let firstWord := String.mk (lower.toList.takeWhile (fun c => ¬ c.isWhitespace))
    if firstWord ∈ ["setup", "profile", "help"] then some firstWord else none

/-- The coarse event kind of an `EventContext`. -/
inductive EvType where
  | message
  | file_upload
  | member_joined
  deriving DecidableEq, Repr

/-- The routing-relevant fields of `EventContext`
(`fileInfo` is modelled by its presence only). -/
structure REventContext where
  type : EvType
  userId : String
  botUserId : String
  channelId : String
  text : String
  threadTs : Option String
  hasFileInfo : Bool
  isThread : Bool
  isDM : Bool
  deriving Repr

/-- The `customers` columns consulted by the router. -/
structure CustomerRouteRec where
  onboarding_step : Nat
  onboarding_complete : Bool
  active_thread_type : Option String
  onboarding_channel : Option String
  onboarding_thread_ts : Option String
  deriving DecidableEq, Repr

/-- Route metadata (the `meta` object of a `RouteDecision`). -/
inductive RouteMeta where
  | noMeta
  | isBotJoin (b : Bool)
  | needsIntentClassification
  | command (c : String)
  | threadType (t : String)
  | competitorUrl (url : String)
  deriving DecidableEq, Repr

/-- `RouteDecision`. -/
structure RouteDecision where
  agent : String
  meta : RouteMeta
  deriving DecidableEq, Repr

/-- The `routeDM` guard
`customer && !customer.onboarding_complete && (customer.onboarding_step > 0
|| customer.active_thread_type === "onboarding")`. -/
def dmOnboardingActive : Option CustomerRouteRec → Bool
  | some c =>
    ¬ c.onboarding_complete ∧
      (c.onboarding_step > 0 ∨ c.active_thread_type = some "onboarding")
  | none => false

/-- `routeDM`: active-onboarding check first, then commands, then the help
fallback.  Never consults any LLM. -/
def routeDM (ctx : REventContext) (customer : Option CustomerRouteRec) : RouteDecision :=
  if dmOnboardingActive customer then ⟨"onboarding", .noMeta⟩
  else
    match parseCommand ctx.text with
    | some command => ⟨"command", .command command⟩
    | none => ⟨"command", .command "help"⟩

/-- `routeThread`: onboarding-thread match, then generation-thread match,
else drop.  Never consults any LLM. -/
def routeThread (ctx : REventContext) (customer : Option CustomerRouteRec)
    (generationSourceType : Option String) : Option RouteDecision :=
  if ctx.text = "" then none
  else
    let isOnb : Bool :=
      match customer with
      | some c =>
        ¬ c.onboarding_complete ∧ c.active_thread_type = some "onboarding" ∧
          c.onboarding_channel = some ctx.channelId ∧
          c.onboarding_thread_ts = ctx.threadTs
      | none => false
    if isOnb then some ⟨"onboarding", .noMeta⟩
    else
      match generationSourceType with
      | some st =>
        if st = "video" ∨ st = "image" ∨ st = "competitor_analysis" then
          some ⟨"conversation", .threadType st⟩
        else none
      | none => none

/-- `classifyTopLevelIntent`'s normalisation of the raw model reply: only the
three non-default labels survive; anything else (and any model error)
defaults to `brand_context`. -/
def normalizeIntent (raw : String) : String :=
  if raw = "competitor_analysis" ∨ raw = "command" ∨ raw = "conversation" then raw
  else "brand_context"

/-- `routeTopLevel`.  Returns the decision together with a flag recording
whether `classifyTopLevelIntent` (the Sonnet fallback) was invoked. -/
def routeTopLevel (extractUrl : String → Option String)
    (competitorSignals : String → Bool) (classify : String → String)
    (ctx : REventContext) : RouteDecision × Bool :=
  match parseCommand ctx.text with
  | some command => (⟨"command", .command command⟩, false)
  | none =>
    let url := extractUrl ctx.text
    let trimmedLen := (trimL ctx.text.toList).length
    match url with
    | some u =>
      if trimmedLen > 10 ∧ competitorSignals ctx.text then
        (⟨"competitor_analysis", .competitorUrl u⟩, false)
      else if trimmedLen ≤ 10 then
        (⟨"command", .command "fallback"⟩, false)
      else
        -- URL with no clear competitor signals: first Sonnet call
        let intent := normalizeIntent (classify ctx.text)
        if intent = "competitor_analysis" then
          (⟨"competitor_analysis", .competitorUrl u⟩, true)
        else
          -- fall through to the generic Sonnet classification
          let intent2 := normalizeIntent (classify ctx.text)
          if intent2 = "command" then (⟨"command", .command "help"⟩, true)
          else if intent2 = "competitor_analysis" then (⟨"competitor_analysis", .noMeta⟩, true)
          else (⟨"brand_context", .noMeta⟩, true)
    | none =>
      if trimmedLen ≤ 10 then
        (⟨"command", .command "fallback"⟩, false)
      else
        let intent2 := normalizeIntent (classify ctx.text)
        if intent2 = "command" then (⟨"command", .command "help"⟩, true)
        else if intent2 = "competitor_analysis" then (⟨"competitor_analysis", .noMeta⟩, true)
        else (⟨"brand_context", .noMeta⟩, true)

/-- `routeEvent`: the top-level routing dispatch.  The second component
records whether any LLM fallback classification was invoked. -/
def routeEvent (extractUrl : String → Option String)
    (competitorSignals : String → Bool) (classify : String → String)
    (customer : Option CustomerRouteRec) (generationSourceType : Option String)
    (ctx : REventContext) : Option RouteDecision × Bool :=
  match ctx.type with
  | .member_joined => (some ⟨"welcome", .isBotJoin (ctx.userId = ctx.botUserId)⟩, false)
  | .file_upload => (some ⟨"copy_generation", .needsIntentClassification⟩, false)
  | .message =>
    if ctx.text = "" ∧ ¬ ctx.hasFileInfo then (none, false)
    else if ctx.isDM then (some (routeDM ctx customer), false)
    else if ctx.isThread ∧ ctx.threadTs ≠ none then
      (routeThread ctx customer generationSourceType, false)
    else
      let (d, used) := routeTopLevel extractUrl competitorSignals classify ctx
      (some d, used)

/-! ### Learning-agent merge protocol (`src/lib/agents/learning.ts`)

The `learnings` table is modelled as a list of rows; row ids (uuids) as
`Nat`; the wall-clock `new Date().toISOString()` as a `Nat` parameter `now`;
`confidence` (a JS float) as `ℚ`.  A Supabase `insert` appends a row whose id
is a database-generated fresh uuid, modelled by a parameter `newId` that does
not occur in the table; an insert error leaves the table unchanged. -/

/-- One row of the `learnings` table (columns touched by the merge
processors). -/
structure LearningRow where
  id : Nat
  channel_id : String
  team_id : String
  category : String
  insight : String
  confidence : ℚ
  sample_size : Nat
  version : Nat
  active : Bool
  superseded_by : Option Nat
  last_reinforced_at : Nat
  source_feedback_ids : List String
  deriving DecidableEq, Repr

/-- `ReinforceAction` (`reason` is never read by the processor). -/
structure ReinforceAction where
  existing_learning_id : Nat

/-- `SupersedeAction`. -/
structure SupersedeAction where
  existing_learning_id : Nat
  category : String
  insight : String
  confidence : ℚ
  sample_size : Nat
  source_feedback_ids : Option (List String)

/-- `processReinforce`: look the id up in the fetched `existingLearnings`
array; if absent, log and return; otherwise write back
`min(confidence + 0.05, 1)`, `sample_size + 1`, `version + 1` and a fresh
timestamp to the row matching both the id and the channel. -/
def processReinforce (action : ReinforceAction) (channelId : String)
    (existingLearnings : List LearningRow) (now : Nat)
    (db : List LearningRow) : List LearningRow :=
  match existingLearnings.find? (fun l => l.id = action.existing_learning_id) with
  | none => db
  | some existing =>
    db.map (fun r =>
      if r.id = action.existing_learning_id ∧ r.channel_id = channelId then
        { r with
          confidence := min (existing.confidence + 1/20) 1
          sample_size := existing.sample_size + 1
          version := existing.version + 1
          last_reinforced_at := now }
      else r)

/-- The row inserted by `processSupersede`. -/
def supersedeInsertRow (action : SupersedeAction) (channelId teamId : String)
    (newId now : Nat) : LearningRow :=
  { id := newId
    channel_id := channelId
    team_id := teamId
    category := action.category
    insight := action.insight
    confidence := min (max action.confidence 0) 1
    sample_size := action.sample_size
    version := 1
    active := true
    superseded_by := none
    last_reinforced_at := now
    source_feedback_ids := action.source_feedback_ids.getD [] }

/-- The `update({active: false, superseded_by})
.eq("id", old).eq("channel_id", channelId)` write of `processSupersede`,
as its effect on one row. -/
def supersedeUpdate (action : SupersedeAction) (channelId : String) (newId : Nat)
    (r : LearningRow) : LearningRow :=
  if r.id = action.existing_learning_id ∧ r.channel_id = channelId then
    { r with active := false, superseded_by := some newId }
  else r

/-- `processSupersede`: insert the new learning as active/version 1; if the
insert fails (`insertOk = false`) return with the table unchanged; otherwise
deactivate the rows matching the old id and the channel, pointing
`superseded_by` at the new row. -/
def processSupersede (action : SupersedeAction) (channelId teamId : String)
    (newId now : Nat) (insertOk : Bool) (db : List LearningRow) : List LearningRow :=
  if insertOk then
    let inserted := supersedeInsertRow action channelId teamId newId now
    (db ++ [inserted]).map (supersedeUpdate action channelId newId)
  else db

/-! ### Onboarding state machine (`src/lib/onboarding.ts` thread version, and
`finishOnboarding` in `src/app/api/slack/events/route.ts`)

One `customers` row is modelled as `CustomerRec`.  `sanitize`
(`src/lib/sanitize.ts`, an injection-pattern scrubber whose output never
influences the step counter) is an oracle parameter.  Message posting is
side-effect only; the `postMessage` result timestamp consumed at step 0 is
the `postTs` parameter. -/

/-- The `customers` columns touched by the onboarding flow. -/
structure CustomerRec where
  onboarding_step : Nat
  onboarding_complete : Bool
  onboarding_channel : Option String
  onboarding_thread_ts : Option String
  active_thread_type : Option String
  business_name : Option String
  product_description : Option String
  target_audience : Option String
  differentiator : Option String
  price_and_offer : Option String
  tone_preference : Option String
  copy_examples : String
  copy_example_count : Nat
  deriving DecidableEq, Repr

/-- Result of `handleOnboardingMessage`. -/
inductive OnbOutcome where
  | handled
  | done
  | not_onboarding
  deriving DecidableEq, Repr

/-- `STEP_TO_FIELD`: store the answer for question `step`. -/
def setAnswerField (rec : CustomerRec) (step : Nat) (value : Option String) : CustomerRec :=
  match step with
  | 1 => { rec with business_name := value }
  | 2 => { rec with product_description := value }
  | 3 => { rec with target_audience := value }
  | 4 => { rec with differentiator := value }
  | 5 => { rec with price_and_offer := value }
  | 6 => { rec with tone_preference := value }
  | _ => rec

def TOTAL_QUESTIONS : Nat := 6

/-- `handleOnboardingMessage` (channel-thread version, steps 0‒8). -/
def handleOnboardingMessage (sanitize : String → String) (rec : CustomerRec)
    (channelId text : String) (threadTs postTs : Option String) :
    CustomerRec × OnbOutcome :=
  if rec.onboarding_complete then (rec, .not_onboarding)
  else
    let step := rec.onboarding_step
    if step = 0 then
      ({ rec with
          onboarding_step := 1
          onboarding_channel := some channelId
          onboarding_thread_ts := threadTs.orElse (fun _ => postTs)
          active_thread_type := some "onboarding" },
       .handled)
    else if 1 ≤ step ∧ step ≤ TOTAL_QUESTIONS then
      let value := if String.mk (lowerL text.toList) = "skip" then none else some (sanitize text)
      ({ setAnswerField rec step value with onboarding_step := step + 1 }, .handled)
    else if step = 7 then
      if String.mk (lowerTrim text) = "done" then
        ({ rec with
            onboarding_step := 8
            onboarding_complete := true
            active_thread_type := none },
         .done)
      else
        let existing := rec.copy_examples
        let count := rec.copy_example_count + 1
        let separator := if existing ≠ "" then "\n\n---\n\n" else ""
        ({ rec with
            copy_examples := existing ++ separator ++ sanitize text
            copy_example_count := count },
         .handled)
    else (rec, .not_onboarding)

/-- `startOnboardingInThread`: no-op when an interview was already started
(or completed); otherwise move to step 1 anchored at the triggering
message. -/
def startOnboardingInThread (rec : CustomerRec) (channelId parentTs : String) : CustomerRec :=
  if rec.onboarding_step > 0 then rec
  else
    { rec with
        onboarding_step := 1
        onboarding_channel := some channelId
        onboarding_thread_ts := some parentTs
        active_thread_type := some "onboarding" }

/-- The customer-row effect of `finishOnboarding`
(`src/app/api/slack/events/route.ts`): on successful voice-profile
extraction the row is untouched; on failure it is reset to step 7 with
`onboarding_complete = false` so the user can retry. -/
def finishOnboardingUpdate (extractionOk : Bool) (rec : CustomerRec) : CustomerRec :=
  if extractionOk then rec
  else
    { rec with
        onboarding_step := 7
        onboarding_complete := false
        active_thread_type := some "onboarding" }

/-! ### Event normalizer (`src/lib/agents/normalize.ts`) -/

/-- A raw Slack event, as one structure over the union of fields the
normalizer reads (absent JSON fields are `none`). -/
structure SlackEvent where
  type : String
  user : String
  channel : String
  user_id : String
  channel_id : String
  text : Option String
  ts : String
  thread_ts : Option String
  subtype : Option String
  bot_id : Option String
  channel_type : Option String
  deriving Repr

/-- The normalized `EventContext` (minus `rawEvent`; `fileInfo` is `none` at
normalization time for every kind). -/
structure NEventContext where
  type : EvType
  teamId : String
  botUserId : String
  userId : String
  channelId : String
  text : String
  threadTs : Option String
  parentTs : Option String
  isThread : Bool
  isDM : Bool
  deriving DecidableEq, Repr

/-- Shallow embedding of `normalizeEvent`. -/
def normalizeEvent (event : SlackEvent) (teamId botUserId : String) :
    Option NEventContext :=
  if event.type = "member_joined_channel" then
    some
      { type := .member_joined, teamId, botUserId
        userId := event.user, channelId := event.channel
        text := "", threadTs := none, parentTs := none
        isThread := false, isDM := false }
  else if event.type = "file_shared" then
    some
      { type := .file_upload, teamId, botUserId
        userId := event.user_id, channelId := event.channel_id
        text := "", threadTs := none, parentTs := none
        isThread := false, isDM := false }
  else if event.type = "message" then
    if event.subtype ≠ none ∨ event.bot_id ≠ none then none
    else
      let isDM := event.channel_type = some "im"
      let isThread := event.thread_ts ≠ none
      some
        { type := .message, teamId, botUserId
          userId := event.user, channelId := event.channel
          text := event.text.getD ""
          threadTs := event.thread_ts
          parentTs := if isThread then event.thread_ts else some event.ts
          isThread, isDM }
  else none

/-! ### Webhook signature verification (`src/lib/verify-slack.ts`)

`crypto.createHmac(...).digest("hex")` is an oracle `hmacHex`;
`Buffer.from(s)` is the UTF-8 encoding of `s`, whose byte length is
`byteLen` below.  `crypto.timingSafeEqual` THROWS
(`ERR_CRYPTO_TIMING_SAFE_EQUAL_LENGTH`) when the two buffers differ in
length, so the embedding returns `Except`: `.error` models the uncaught
exception and `.ok` the boolean return.  Equal-length UTF-8 encodings are
equal iff the strings are equal, so the byte comparison is modelled by
string equality. -/

/-- Byte length of the UTF-8 encoding (JS `Buffer.from(s).length`). -/
def byteLen (s : String) : Nat := (s.toList.map Char.utf8Size).sum

/-- Model of JS `parseInt`: skip leading whitespace, optional sign, then a
leading digit run; `none` models `NaN`. -/
def parseIntJS (s : String) : Option Int :=
  let l := s.toList.dropWhile Char.isWhitespace
  let (neg, rest) :=
    match l with
    | '-' :: r => (true, r)
    | '+' :: r => (false, r)
    | r => (false, r)
  let digits := rest.takeWhile Char.isDigit
  if digits = [] then none
  else
    let n : Nat := digits.foldl (fun acc c => acc * 10 + (c.toNat - '0'.toNat)) 0
    some (if neg then -(n : Int) else (n : Int))

inductive VerifyError where
  | timingSafeEqualLength
  deriving DecidableEq, Repr

/-- Shallow embedding of `verifySlackRequest`.  `secretSet` models
`SLACK_SIGNING_SECRET` being nonempty; `now` is `Math.floor(Date.now()/1000)`.
Note the JS replay check `Math.abs(now - parseInt(timestamp)) > 300` is
`NaN > 300 = false` when the timestamp does not parse, so a non-numeric
timestamp falls through to the signature comparison. -/
def verifySlackRequest (hmacHex : String → String) (secretSet : Bool) (now : Int)
    (body timestamp signature : String) : Except VerifyError Bool :=
  if ¬ secretSet then .ok false
  else
    let tooOld : Bool :=
      match parseIntJS timestamp with
      | some t => (now - t).natAbs > 300
      | none => false
    if tooOld then .ok false
    else
      let sigBaseString := "v0:" ++ timestamp ++ ":" ++ body
      let expectedSignature := "v0=" ++ hmacHex sigBaseString
      if byteLen signature ≠ byteLen expectedSignature then
        .error .timingSafeEqualLength
      else .ok (signature = expectedSignature)

/-! ### Quality gate (`src/lib/agents/quality-gate.ts`)

`runQualityGate` takes an `AgentResult` and the channel's voice profile;
side effects and the learning flag pass through untouched, so the side-effect
payload type is a type parameter. -/

/-- A Slack message of an `AgentResult`. -/
structure GateMessage where
  channel : String
  text : String
  threadTs : Option String
  deriving DecidableEq, Repr

/-- `AgentResult`, polymorphic in the side-effect payload (the gate never
inspects it). -/
structure GAgentResult (ε : Type) where
  messages : List GateMessage
  sideEffects : List ε
  triggerLearning : Bool
  deriving DecidableEq, Repr

inductive Severity where
  | minor
  | major
  deriving DecidableEq, Repr

/-- `QualityIssue`. -/
structure QualityIssue where
  severity : Severity
  description : String
  autoFixable : Bool
  deriving DecidableEq, Repr

/-- Drop one optional occurrence of `c` at the head (for the `?`-suffixed
regex atoms). -/
def dropOpt (c : Char) : List Char → List Char
  | [] => []
  | x :: r => if x = c then r else x :: r

/-- First pass of the fence auto-fix: `text.replace(/```json?\n?/g, "")`
(three backticks, then `jso`, an optional `n`, an optional newline;
global leftmost non-overlapping, like JS `replace`).  Fuel-structural;
every step consumes at least one char. -/
def stripFencePass1Go : Nat → List Char → List Char
  | _, [] => []
  | 0, l => l
  | fuel + 1, c :: rest =>
    if ("```jso".toList).isPrefixOf (c :: rest) then
      stripFencePass1Go fuel (dropOpt '\n' (dropOpt 'n' ((c :: rest).drop 6)))
    else c :: stripFencePass1Go fuel rest

/-- Second pass: `text.replace(/```/g, "")`. -/
def stripFencePass2Go : Nat → List Char → List Char
  | _, [] => []
  | 0, l => l
  | fuel + 1, c :: rest =>
    if ("```".toList).isPrefixOf (c :: rest) then
      stripFencePass2Go fuel ((c :: rest).drop 3)
    else c :: stripFencePass2Go fuel rest

/-- The fence auto-fix applied to a message text:
`text.replace(/```json?\n?/g, "").replace(/```/g, "")`. -/
def stripFences (s : String) : String :=
  let pass1 := stripFencePass1Go s.toList.length s.toList
  String.mk (stripFencePass2Go pass1.length pass1)

/-- The suffix after the first occurrence of `pat`, if any. -/
def afterFirst (pat : List Char) : List Char → Option (List Char)
  | [] => if pat.isPrefixOf ([] : List Char) then some [] else none
  | c :: rest =>
    if pat.isPrefixOf (c :: rest) then some ((c :: rest).drop pat.length)
    else afterFirst pat rest

/-- All matches of the regex `/\*Headline:\*\s*(.+)/g` on a message text,
each already passed through `.replace("*Headline:*","").trim().toLowerCase()`
as in the source (the match is the marker, then skipped whitespace, then the
rest of the line, which must be nonempty).  Fuel-structural; every iteration
consumes at least the marker, so `fuel = l.length` never runs out. -/
def extractHeadlinesGo : Nat → List Char → List (List Char)
  | 0, _ => []
  | fuel + 1, l =>
    match afterFirst ("*Headline:*".toList) l with
    | none => []
    | some rest =>
      let rest1 := rest.dropWhile Char.isWhitespace
      let captured := rest1.takeWhile (fun c => c ≠ '\n')
      if captured = [] then []
      else lowerL (trimL captured) :: extractHeadlinesGo fuel (rest1.drop captured.length)

def extractHeadlines (l : List Char) : List (List Char) :=
  extractHeadlinesGo l.length l

/-- The chars before the first occurrence of `pat` (all of `l` when `pat`
does not occur): the lazy `([\s\S]*?)` capture bounded by a lookahead. -/
def takeUntilSub (pat : List Char) : List Char → List Char
  | [] => []
  | c :: rest =>
    if pat.isPrefixOf (c :: rest) then []
    else c :: takeUntilSub pat rest

/-- All matches of `/\*Primary Text:\*\n([\s\S]*?)(?=\n———|$)/g`: each
captured block runs from after the marker to the next `"\n———"` or the end
of the text.  Fuel-structural; every iteration consumes at least the marker. -/
def extractPrimariesGo : Nat → List Char → List (List Char)
  | 0, _ => []
  | fuel + 1, l =>
    match afterFirst ("*Primary Text:*\n".toList) l with
    | none => []
    | some rest =>
      let content := takeUntilSub ("\n———".toList) rest
      content :: extractPrimariesGo fuel (rest.drop content.length)

def extractPrimaries (l : List Char) : List (List Char) :=
  extractPrimariesGo l.length l

/-- The per-message checks of `runDeterministicChecks`, in source order:
JSON artifacts, leaked code fences (the auto-fixable one), unbalanced bold
markers, banned phrases, mandatory phrases (long copy only), duplicate
rendered headlines, truncated primary-text blocks. -/
def msgIssues (profile : VoiceProfile) (text : String) : List QualityIssue :=
  let jsonIssues :=
    if strIncludes text "\x7b\"angle\"" ∨ strIncludes text "[\x7b" ∨
        strIncludes text "\"\x7d]" then
      [⟨.minor, "JSON artifacts detected in output", false⟩]
    else []
  let fenceIssues :=
    if strIncludes text "```json" ∨ strIncludes text "```" then
      [⟨.minor, "Markdown code blocks removed from output", true⟩]
    else []
  let boldIssues :=
    if (text.toList.filter (fun c => c = '*')).length % 2 ≠ 0 then
      [⟨.minor, "Unclosed bold marker detected", false⟩]
    else []
  let bannedIssues :=
    profile.banned_phrases.flatMap (fun banned =>
      if banned ≠ "" ∧ strIncludesCI text banned then
        [⟨.major, "Banned phrase \"" ++ banned ++ "\" found in output", false⟩]
      else [])
  let mandatoryIssues :=
    if text.length > 500 then
      profile.mandatory_phrases.flatMap (fun phrase =>
        if phrase ≠ "" ∧ ¬ strIncludesCI text phrase then
          [⟨.minor, "Mandatory phrase \"" ++ phrase ++ "\" missing from output", false⟩]
        else [])
    else []
  let headlines := extractHeadlines text.toList
  let headlineIssues :=
    if headlines.length > 1 ∧ headlines.dedup.length < headlines.length then
      [⟨.major, "Duplicate headlines detected across variants", false⟩]
    else []
  let primaryIssues :=
    (extractPrimaries text.toList).flatMap (fun content =>
      if (trimL content).length < 50 then
        [⟨.minor, "Primary text appears truncated (under 50 chars)", false⟩]
      else [])
  jsonIssues ++ fenceIssues ++ boldIssues ++ bannedIssues ++ mandatoryIssues ++
    headlineIssues ++ primaryIssues

/-- `QualityCheckResult`. -/
structure QualityCheckResult where
  passed : Bool
  issues : List QualityIssue
  autoFixed : Bool
  fixedMessages : Option (List GateMessage)
  deriving Repr

/-- A message contains a fence marker (`text.includes("```json") || text.includes("```")`). -/
def hasFence (text : String) : Bool :=
  strIncludes text "```json" ∨ strIncludes text "```"

/-- Shallow embedding of `runDeterministicChecks`: collects issues over all
messages and rewrites in place the messages containing fence markers (the
only mutation of `fixedMessages`). -/
def runDeterministicChecks {ε : Type} (result : GAgentResult ε)
    (profile : VoiceProfile) : QualityCheckResult :=
  let issues := result.messages.flatMap (fun m => msgIssues profile m.text)
  let autoFixed := result.messages.any (fun m => hasFence m.text)
  let fixedMessages := result.messages.map (fun m =>
    if hasFence m.text then { m with text := stripFences m.text } else m)
  { passed := issues.isEmpty
    issues
    autoFixed
    fixedMessages := if autoFixed then some fixedMessages else none }

/-- Shallow embedding of `runQualityGate`: no profile or no message above the
200-char floor passes the result through; otherwise deterministic issues with
an auto-fix return the fixed messages, and anything else (major issues
included) is logged, not blocked. -/
def runQualityGate {ε : Type} (result : GAgentResult ε)
    (profile : Option VoiceProfile) : GAgentResult ε :=
  match profile with
  | none => result
  | some p =>
    let substantive := result.messages.filter (fun m => m.text.length > 200)
    if substantive.length = 0 then result
    else
      let det := runDeterministicChecks result p
      if ¬ det.passed then
        if det.autoFixed ∧ det.fixedMessages ≠ none then
          { result with messages := det.fixedMessages.getD result.messages }
        else result
      else result

/-! ## Theorems -/

/-! ### Shared helper lemmas -/

theorem jaccardGtThreshold_iff (a b : String) :
    jaccardGtThreshold a b = true ↔ jaccardSimilarity a b > 7/10 := by
  unfold jaccardGtThreshold jaccardSimilarity
  by_cases h0 : (jaccardWords a).length = 0 ∨ (jaccardWords b).length = 0
  · rw [if_pos h0, if_pos h0]
    norm_num
  · rw [if_neg h0, if_neg h0]
    by_cases hu : jaccardUnion a b = 0
    · rw [if_pos hu, if_pos hu]
      norm_num
    · rw [if_neg hu, if_neg hu]
      have hupos : (0:ℚ) < (jaccardUnion a b : ℚ) := by
        exact_mod_cast Nat.pos_of_ne_zero hu
      simp only [decide_eq_true_eq, gt_iff_lt]
      rw [div_lt_div_iff₀ (by norm_num : (0:ℚ) < 10) hupos]
      rw [mul_comm ((jaccardInter a b : ℚ)) 10]
      exact_mod_cast Iff.rfl

/-! ### C4 — duplicate-headline submissions are always rejected -/

/-- C4: for every agent-loop state and every `submit_variant` call whose
headline equals, case-insensitively after trimming, the headline of an
already-accepted variant, `executeSubmitVariant` returns `success = false`
and leaves the accepted list unchanged — whatever the rest of the state and
profile, hence regardless of submission order. -/
theorem submitVariant_duplicate_headline_rejected
    (input : SubmitVariantInput) (state : AgentLoopState) (profile : VoiceProfile)
    (h : ∃ v ∈ state.variants, lowerTrim v.headline = lowerTrim input.headline) :
    (executeSubmitVariant input state profile).1.success = false ∧
    (executeSubmitVariant input state profile).2.variants = state.variants := by
  have hmem : lowerTrim input.headline ∈ state.variants.map (fun v => lowerTrim v.headline) := by
    rcases h with ⟨v, hv, he⟩
    exact List.mem_map.mpr ⟨v, hv, he⟩
  have hc : (state.variants.map (fun v => lowerTrim v.headline)).contains
      (lowerTrim input.headline) = true :=
    List.elem_eq_true_of_mem hmem
  have hne : submitIssues input state profile ≠ [] := by
    have hmem2 :
        "Headline \"" ++ input.headline ++ "\" duplicates an existing variant - make it unique."
          ∈ submitIssues input state profile := by
      simp only [submitIssues]
      refine List.mem_append_left _ (List.mem_append_left _
        (List.mem_append_right _ ?_))
      simpa [hc] using h
    exact List.ne_nil_of_mem hmem2
  simp only [executeSubmitVariant]
  rw [if_pos hne]
  exact ⟨rfl, rfl⟩

/-- Witness for C4 at a concrete input: headline "hello" duplicates the
already-accepted " Hello ". -/
theorem submitVariant_duplicate_headline_rejected_witness :
    (executeSubmitVariant ⟨"angle b", "hello", "d", "p"⟩
        ⟨[⟨"angle a", " Hello ", "d", "p"⟩], 1, [], false⟩ ⟨[], []⟩).1.success = false ∧
    (executeSubmitVariant ⟨"angle b", "hello", "d", "p"⟩
        ⟨[⟨"angle a", " Hello ", "d", "p"⟩], 1, [], false⟩ ⟨[], []⟩).2.variants =
      [⟨"angle a", " Hello ", "d", "p"⟩] :=
  submitVariant_duplicate_headline_rejected _ _ _
    ⟨⟨"angle a", " Hello ", "d", "p"⟩, by simp, by decide⟩

/-! ### C1 — the loop accepts a fifth variant (no cap at 4) -/

/-- The profile used for the C1 run: no banned or mandatory phrases. -/
def c1Profile : VoiceProfile := ⟨[], []⟩

/-- A well-formed submission (headline under 40 chars, three paragraphs, no
code fences) parameterised by its angle and headline. -/
def c1Submit (angle headline : String) : SubmitVariantInput :=
  ⟨angle, headline, "One sentence.",
   "First paragraph here.\n\nSecond paragraph here.\n\nThird paragraph here."⟩

/-- A run in which the model submits five distinct valid variants in its
first assistant turn and then stops. -/
def c1Responses : Nat → LLMResponse := fun n =>
  if n = 0 then
    .toolUse
      [.submit (c1Submit "angle one" "Headline one"),
       .submit (c1Submit "angle two" "Headline two"),
       .submit (c1Submit "angle three" "Headline three"),
       .submit (c1Submit "angle four" "Headline four"),
       .submit (c1Submit "angle five" "Headline five")]
  else .endTurn

/-- C1 (refuting the 0–4 bound): the loop accepts all five distinct valid
submissions — nothing rejects a fifth variant — so `copyGenerationAgent`
returns five variants, contradicting both the spec's "never more than 4" and
the source's own "(4 times total)" tool description. -/
theorem agentLoop_accepts_fifth_variant :
    (runAgentLoop c1Profile (fun _ => 0) c1Responses).variants.length = 5 ∧
    (match copyGenerationOutcome c1Profile (fun _ => 0) c1Responses with
      | .variants vs => vs.length
      | .failure _ => 0) = 5 := by
  constructor <;> decide

theorem flatMap_eq_nil_forall {α β : Type} {l : List α} {f : α → List β}
    (h : l.flatMap f = []) : ∀ x ∈ l, f x = [] := by
  intro x hx
  by_contra hne
  rcases List.exists_mem_of_ne_nil _ hne with ⟨y, hy⟩
  have hmem : y ∈ l.flatMap f := List.mem_flatMap.mpr ⟨x, hx, hy⟩
  rw [h] at hmem
  exact absurd hmem (List.not_mem_nil y)

/-! ### C5 — what `review_set` success guarantees -/

/-- A variant whose primary text is 109 chars of words unique to the given
digit tag (pairwise Jaccard similarity 0 with the other tags). -/
def c5v (angle headline tag : String) : CopyVariant :=
  ⟨angle, headline, "One sentence.",
    "aaaaaaaa" ++ tag ++ " bbbbbbbb" ++ tag ++ " cccccccc" ++ tag ++ " dddddddd" ++ tag ++
    " eeeeeeee" ++ tag ++ " ffffffff" ++ tag ++ " gggggggg" ++ tag ++ " hhhhhhhh" ++ tag ++
    " iiiiiiii" ++ tag ++ " jjjjjjjj" ++ tag ++ " kkkkkkkk" ++ tag⟩

/-- Five accepted variants in which variants 1 and 5 share the angle
"angle a": reachable because nothing caps submissions at 4 (see C1). -/
def c5Variants : List CopyVariant :=
  [c5v "angle a" "h one" "1", c5v "angle b" "h two" "2", c5v "angle c" "h three" "3",
   c5v "angle d" "h four" "4", c5v "angle a" "h five" "5"]

def c5State : AgentLoopState := ⟨c5Variants, 5, [], false⟩

/-- C5 counterexample: with five accepted variants the distinctness checks
only require the de-duplicated count to reach 4, so `review_set` returns
success although two variants share an angle — refuting "when it does
return success ... all angles distinct". -/
theorem reviewSet_duplicate_angle_passes :
    (executeReviewSet true c5State ⟨[], []⟩).1.success = true ∧
    ¬ (c5State.variants.map (fun v => lowerTrim v.angle)).Nodup := by
  constructor <;> decide

/-- C5 as amended: `review_set` never succeeds with fewer than 4 accepted
variants, and success guarantees at least 4 distinct angles, at least 4
distinct case-insensitive headlines, pairwise Jaccard similarity of primary
texts at most 0.7, and a 100-char floor on every primary text; when exactly
4 variants are accepted, the angle and headline distinctness is therefore
total.  (With more than 4 accepted variants — possible, see C1 — only the
at-least-4 counts are enforced.) -/
theorem reviewSet_success_conditions (confirm : Bool) (state : AgentLoopState)
    (profile : VoiceProfile)
    (h : (executeReviewSet confirm state profile).1.success = true) :
    4 ≤ state.variants.length ∧
    4 ≤ ((state.variants.map (fun v => lowerTrim v.angle)).dedup).length ∧
    4 ≤ ((state.variants.map (fun v => lowerTrim v.headline)).dedup).length ∧
    (∀ p ∈ state.variants.enum, ∀ q ∈ state.variants.enum, p.1 < q.1 →
        jaccardSimilarity p.2.primary_text q.2.primary_text ≤ 7/10) ∧
    (∀ v ∈ state.variants, 100 ≤ v.primary_text.length) ∧
    (state.variants.length = 4 →
        (state.variants.map (fun v => lowerTrim v.angle)).Nodup ∧
        (state.variants.map (fun v => lowerTrim v.headline)).Nodup) := by
  by_cases hlen : state.variants.length < 4
  · exfalso
    simp only [executeReviewSet] at h
    rw [if_pos hlen] at h
    exact absurd h (by simp)
  · have hlen4 : 4 ≤ state.variants.length := Nat.le_of_not_lt hlen
    by_cases hiss : reviewIssues state.variants = []
    case neg =>
      exfalso
      simp only [executeReviewSet] at h
      rw [if_neg hlen, if_pos hiss] at h
      exact absurd h (by simp)
    case pos =>
      have hparts := hiss
      simp only [reviewIssues, List.append_eq_nil] at hparts
      obtain ⟨⟨⟨hangle, hheadline⟩, hjac⟩, hshort⟩ := hparts
      have hangle4 : 4 ≤ ((state.variants.map (fun v => lowerTrim v.angle)).dedup).length := by
        by_contra hcon
        rw [if_pos (Nat.lt_of_not_le hcon)] at hangle
        exact absurd hangle (by simp)
      have hheadline4 :
          4 ≤ ((state.variants.map (fun v => lowerTrim v.headline)).dedup).length := by
        by_contra hcon
        rw [if_pos (Nat.lt_of_not_le hcon)] at hheadline
        exact absurd hheadline (by simp)
      have hjacOK : ∀ p ∈ state.variants.enum, ∀ q ∈ state.variants.enum, p.1 < q.1 →
          jaccardSimilarity p.2.primary_text q.2.primary_text ≤ 7/10 := by
        intro p hp q hq hlt
        by_contra hcon
        have hflag : jaccardGtThreshold p.2.primary_text q.2.primary_text = true :=
          (jaccardGtThreshold_iff _ _).mpr (lt_of_not_le hcon)
        have hinner := flatMap_eq_nil_forall (flatMap_eq_nil_forall hjac p hp) q hq
        rw [if_pos ⟨hlt, hflag⟩] at hinner
        exact absurd hinner (by simp)
      have hshortOK : ∀ v ∈ state.variants, 100 ≤ v.primary_text.length := by
        intro v hv
        by_contra hcon
        have hv2 : v ∈ state.variants.enum.map Prod.snd := by
          rw [List.enum_map_snd]
          exact hv
        rcases List.mem_map.mp hv2 with ⟨p, hp, hpv⟩
        have hinner := flatMap_eq_nil_forall hshort p hp
        rw [if_pos (by rw [hpv]; exact Nat.lt_of_not_le hcon)] at hinner
        exact absurd hinner (by simp)
      refine ⟨hlen4, hangle4, hheadline4, hjacOK, hshortOK, ?_⟩
      intro h4
      constructor
      · have hsub := List.dedup_sublist (state.variants.map (fun v => lowerTrim v.angle))
        have hle := hsub.length_le
        have heq : ((state.variants.map (fun v => lowerTrim v.angle)).dedup).length =
            (state.variants.map (fun v => lowerTrim v.angle)).length := by
          simp only [List.length_map, h4]
          simp only [List.length_map, h4] at hle
          omega
        exact List.dedup_eq_self.mp (hsub.eq_of_length heq)
      · have hsub := List.dedup_sublist (state.variants.map (fun v => lowerTrim v.headline))
        have hle := hsub.length_le
        have heq : ((state.variants.map (fun v => lowerTrim v.headline)).dedup).length =
            (state.variants.map (fun v => lowerTrim v.headline)).length := by
          simp only [List.length_map, h4]
          simp only [List.length_map, h4] at hle
          omega
        exact List.dedup_eq_self.mp (hsub.eq_of_length heq)

/-- Witness for C5's amended theorem at a concrete passing 4-variant set. -/
theorem reviewSet_success_conditions_witness :
    4 ≤ ([c5v "angle a" "h one" "1", c5v "angle b" "h two" "2", c5v "angle c" "h three" "3",
          c5v "angle d" "h four" "4"] : List CopyVariant).length ∧
    4 ≤ (([c5v "angle a" "h one" "1", c5v "angle b" "h two" "2", c5v "angle c" "h three" "3",
          c5v "angle d" "h four" "4"].map (fun v => lowerTrim v.angle)).dedup).length ∧
    4 ≤ (([c5v "angle a" "h one" "1", c5v "angle b" "h two" "2", c5v "angle c" "h three" "3",
          c5v "angle d" "h four" "4"].map (fun v => lowerTrim v.headline)).dedup).length ∧
    (∀ p ∈ ([c5v "angle a" "h one" "1", c5v "angle b" "h two" "2", c5v "angle c" "h three" "3",
          c5v "angle d" "h four" "4"] : List CopyVariant).enum,
      ∀ q ∈ ([c5v "angle a" "h one" "1", c5v "angle b" "h two" "2", c5v "angle c" "h three" "3",
          c5v "angle d" "h four" "4"] : List CopyVariant).enum, p.1 < q.1 →
        jaccardSimilarity p.2.primary_text q.2.primary_text ≤ 7/10) ∧
    (∀ v ∈ ([c5v "angle a" "h one" "1", c5v "angle b" "h two" "2", c5v "angle c" "h three" "3",
          c5v "angle d" "h four" "4"] : List CopyVariant), 100 ≤ v.primary_text.length) ∧
    (([c5v "angle a" "h one" "1", c5v "angle b" "h two" "2", c5v "angle c" "h three" "3",
          c5v "angle d" "h four" "4"] : List CopyVariant).length = 4 →
        (([c5v "angle a" "h one" "1", c5v "angle b" "h two" "2", c5v "angle c" "h three" "3",
          c5v "angle d" "h four" "4"].map (fun v => lowerTrim v.angle))).Nodup ∧
        (([c5v "angle a" "h one" "1", c5v "angle b" "h two" "2", c5v "angle c" "h three" "3",
          c5v "angle d" "h four" "4"].map (fun v => lowerTrim v.headline))).Nodup) :=
  reviewSet_success_conditions true
    ⟨[c5v "angle a" "h one" "1", c5v "angle b" "h two" "2", c5v "angle c" "h three" "3",
      c5v "angle d" "h four" "4"], 4, [], false⟩ ⟨[], []⟩ (by decide)

/-! ### C6 — command words and the LLM fallback -/

theorem routeTopLevel_command (extractUrl : String → Option String)
    (signals : String → Bool) (classify : String → String)
    (ctx : REventContext) (c : String) (h : parseCommand ctx.text = some c) :
    routeTopLevel extractUrl signals classify ctx = (⟨"command", .command c⟩, false) := by
  unfold routeTopLevel
  rw [h]

theorem routeDM_onboarding (ctx : REventContext) (customer : Option CustomerRouteRec)
    (h : dmOnboardingActive customer = true) :
    routeDM ctx customer = ⟨"onboarding", .noMeta⟩ := by
  unfold routeDM
  rw [h]
  simp

theorem routeDM_command (ctx : REventContext) (customer : Option CustomerRouteRec)
    (c : String) (hcmd : parseCommand ctx.text = some c)
    (hno : dmOnboardingActive customer = false) :
    routeDM ctx customer = ⟨"command", .command c⟩ := by
  unfold routeDM
  rw [hno, hcmd]
  simp

/-- The concrete DM of C6's counterexample: the user says "help" (an exact
command word) while mid-onboarding (step 3, not complete). -/
def c6DMCtx : REventContext :=
  ⟨.message, "U1", "UBOT", "D1", "help", none, false, false, true⟩

def c6Customer : CustomerRouteRec :=
  ⟨3, false, some "onboarding", some "C1", some "111.222"⟩

/-- C6 counterexample: the DM text "help" parses to a command, yet the
router returns the onboarding route, not the command route, because
`routeDM` checks the onboarding state before commands.  (The LLM fallback is
still not invoked.) -/
theorem router_command_during_onboarding :
    parseCommand c6DMCtx.text = some "help" ∧
    (routeEvent (fun _ => none) (fun _ => false) (fun _ => "brand_context")
        (some c6Customer) none c6DMCtx).1 = some ⟨"onboarding", .noMeta⟩ ∧
    (⟨"onboarding", .noMeta⟩ : RouteDecision).agent ≠ "command" := by
  refine ⟨by decide, by decide, by decide⟩

/-- C6 as amended: for every DM or top-level channel message whose text
parses to an exact command word, the router never invokes the LLM fallback
classifier, and it returns the command route — except that a DM from a user
with an active, incomplete onboarding interview is routed to `onboarding`
instead. -/
theorem router_command_no_llm
    (extractUrl : String → Option String) (signals : String → Bool)
    (classify : String → String) (customer : Option CustomerRouteRec)
    (generationSourceType : Option String) (ctx : REventContext) (c : String)
    (htype : ctx.type = .message) (hcmd : parseCommand ctx.text = some c)
    (hpos : ctx.isDM = true ∨ ctx.isThread = false ∨ ctx.threadTs = none) :
    (routeEvent extractUrl signals classify customer generationSourceType ctx).2 = false ∧
    ((routeEvent extractUrl signals classify customer generationSourceType ctx).1 =
        some ⟨"command", .command c⟩ ∨
      (ctx.isDM = true ∧ dmOnboardingActive customer = true ∧
        (routeEvent extractUrl signals classify customer generationSourceType ctx).1 =
          some ⟨"onboarding", .noMeta⟩)) := by
  have htext : ctx.text ≠ "" := by
    intro he
    rw [he] at hcmd
    rw [show parseCommand "" = none from rfl] at hcmd
    exact Option.noConfusion hcmd
  simp only [routeEvent, htype]
  rw [if_neg (fun hcon => htext hcon.1)]
  by_cases hdm : ctx.isDM = true
  · rw [if_pos hdm]
    by_cases hact : dmOnboardingActive customer = true
    · exact ⟨rfl, Or.inr ⟨hdm, hact, by rw [routeDM_onboarding _ _ hact]⟩⟩
    · have hno : dmOnboardingActive customer = false := Bool.eq_false_iff.mpr hact
      exact ⟨rfl, Or.inl (by rw [routeDM_command _ _ _ hcmd hno])⟩
  · rw [if_neg hdm]
    have hcond : ¬ (ctx.isThread = true ∧ ctx.threadTs ≠ none) := by
      rcases hpos with hd | ht | hn
      · exact absurd hd hdm
      · intro hcon
        rw [ht] at hcon
        exact absurd hcon.1 (by simp)
      · intro hcon
        exact hcon.2 hn
    rw [if_neg hcond]
    rw [routeTopLevel_command extractUrl signals classify ctx c hcmd]
    exact ⟨rfl, Or.inl rfl⟩

/-- Witness for C6's amended theorem: a top-level channel message
"setup now" routes to the command agent with no LLM call. -/
theorem router_command_no_llm_witness :
    (routeEvent (fun _ => none) (fun _ => false) (fun _ => "brand_context") none none
        ⟨.message, "U1", "UBOT", "C1", "setup now", none, false, false, false⟩).2 = false ∧
    ((routeEvent (fun _ => none) (fun _ => false) (fun _ => "brand_context") none none
        ⟨.message, "U1", "UBOT", "C1", "setup now", none, false, false, false⟩).1 =
        some ⟨"command", .command "setup"⟩ ∨
      ((⟨.message, "U1", "UBOT", "C1", "setup now", none, false, false, false⟩ :
          REventContext).isDM = true ∧
        dmOnboardingActive none = true ∧
        (routeEvent (fun _ => none) (fun _ => false) (fun _ => "brand_context") none none
          ⟨.message, "U1", "UBOT", "C1", "setup now", none, false, false, false⟩).1 =
          some ⟨"onboarding", .noMeta⟩)) :=
  router_command_no_llm (fun _ => none) (fun _ => false) (fun _ => "brand_context")
    none none ⟨.message, "U1", "UBOT", "C1", "setup now", none, false, false, false⟩
    "setup" rfl (by decide) (Or.inr (Or.inl rfl))

/-! ### C2 — the supersede action -/

theorem supersedeUpdate_id (action : SupersedeAction) (channelId : String) (newId : Nat)
    (r : LearningRow) : (supersedeUpdate action channelId newId r).id = r.id := by
  unfold supersedeUpdate
  split <;> rfl

/-- C2: for a supersede action whose `existing_learning_id` references a row
`old` of the channel, and a fresh database-generated id for the insert:
a failed insert leaves the table unchanged (`old` still active); a
successful insert adds exactly one row — the new insight, active with
version 1 — and the old row is not deleted but reappears deactivated with
its `superseded_by` pointer at the new row's id, which resolves to exactly
that one new active row. -/
theorem processSupersede_invariants
    (action : SupersedeAction) (channelId teamId : String) (newId now : Nat)
    (db : List LearningRow) (old : LearningRow)
    (hfresh : ∀ r ∈ db, r.id ≠ newId)
    (hold : old ∈ db) (hid : old.id = action.existing_learning_id)
    (hch : old.channel_id = channelId) :
    processSupersede action channelId teamId newId now false db = db ∧
    (processSupersede action channelId teamId newId now true db).length = db.length + 1 ∧
    (processSupersede action channelId teamId newId now true db).filter
        (fun r => r.id = newId) = [supersedeInsertRow action channelId teamId newId now] ∧
    (supersedeInsertRow action channelId teamId newId now).active = true ∧
    (supersedeInsertRow action channelId teamId newId now).version = 1 ∧
    { old with active := false, superseded_by := some newId } ∈
      processSupersede action channelId teamId newId now true db := by
  have hne : action.existing_learning_id ≠ newId := by
    rw [← hid]
    exact hfresh old hold
  have hinsId : (supersedeInsertRow action channelId teamId newId now).id = newId := rfl
  refine ⟨rfl, ?_, ?_, rfl, rfl, ?_⟩
  · simp [processSupersede]
  · simp only [processSupersede]
    rw [if_pos trivial, List.map_append, List.filter_append]
    have h1 : ((db.map (supersedeUpdate action channelId newId)).filter
        (fun r => r.id = newId)) = [] := by
      rw [List.filter_eq_nil_iff]
      intro a ha
      rcases List.mem_map.mp ha with ⟨r, hr, hra⟩
      have : a.id = r.id := by rw [← hra]; exact supersedeUpdate_id _ _ _ _
      simp only [this]
      simpa using hfresh r hr
    rw [h1]
    have h2 : supersedeUpdate action channelId newId
        (supersedeInsertRow action channelId teamId newId now) =
        supersedeInsertRow action channelId teamId newId now := by
      unfold supersedeUpdate
      rw [if_neg]
      intro hcon
      exact hne (by rw [← hcon.1]; rfl)
    simp [h2, hinsId]
  · simp only [processSupersede]
    rw [if_pos trivial]
    have : supersedeUpdate action channelId newId old =
        { old with active := false, superseded_by := some newId } := by
      unfold supersedeUpdate
      rw [if_pos ⟨hid, hch⟩]
    rw [← this]
    exact List.mem_map_of_mem _ (List.mem_append_left _ hold)

/-- A concrete one-row table for the C2 witness. -/
def c2Old : LearningRow :=
  ⟨1, "C1", "T1", "style_pattern", "old insight", 0, 3, 2, true, none, 10, []⟩

def c2Action : SupersedeAction := ⟨1, "style_pattern", "new insight", 0, 2, none⟩

/-- Witness for C2 at a concrete one-row table, fresh id 2. -/
theorem processSupersede_invariants_witness :
    processSupersede c2Action "C1" "T1" 2 99 false [c2Old] = [c2Old] ∧
    (processSupersede c2Action "C1" "T1" 2 99 true [c2Old]).length = [c2Old].length + 1 ∧
    (processSupersede c2Action "C1" "T1" 2 99 true [c2Old]).filter
        (fun r => r.id = 2) = [supersedeInsertRow c2Action "C1" "T1" 2 99] ∧
    (supersedeInsertRow c2Action "C1" "T1" 2 99).active = true ∧
    (supersedeInsertRow c2Action "C1" "T1" 2 99).version = 1 ∧
    { c2Old with active := false, superseded_by := some 2 } ∈
      processSupersede c2Action "C1" "T1" 2 99 true [c2Old] :=
  processSupersede_invariants c2Action "C1" "T1" 2 99 [c2Old] c2Old
    (by intro r hr; simp at hr; rw [hr]; decide) (by simp) rfl rfl

/-! ### C3 — the reinforce action -/

/-- C3: `processReinforce` never inserts or deletes a row (the row count is
always preserved); an id matching no fetched insight modifies nothing; and
when the id matches a fetched insight `e` of the channel that is a row of
the table, that row is rewritten in place with confidence
`min(confidence + 0.05, 1)`, `sample_size + 1`, `version + 1` and the fresh
timestamp, while every row not matching the id and channel passes through
unchanged. -/
theorem processReinforce_spec
    (action : ReinforceAction) (channelId : String)
    (existing : List LearningRow) (now : Nat) (db : List LearningRow) :
    (processReinforce action channelId existing now db).length = db.length ∧
    (existing.find? (fun l => l.id = action.existing_learning_id) = none →
      processReinforce action channelId existing now db = db) ∧
    (∀ e, existing.find? (fun l => l.id = action.existing_learning_id) = some e →
      e ∈ db → e.channel_id = channelId →
      { e with confidence := min (e.confidence + 1/20) 1,
               sample_size := e.sample_size + 1,
               version := e.version + 1,
               last_reinforced_at := now } ∈
        processReinforce action channelId existing now db) ∧
    (∀ e, existing.find? (fun l => l.id = action.existing_learning_id) = some e →
      ∀ r ∈ db, ¬ (r.id = action.existing_learning_id ∧ r.channel_id = channelId) →
        r ∈ processReinforce action channelId existing now db) := by
  refine ⟨?_, ?_, ?_, ?_⟩
  · unfold processReinforce
    cases existing.find? (fun l => l.id = action.existing_learning_id) with
    | none => rfl
    | some e => simp
  · intro hnone
    unfold processReinforce
    rw [hnone]
  · intro e hfind hmem hech
    have heid : e.id = action.existing_learning_id := by
      have := List.find?_some hfind
      simpa using this
    unfold processReinforce
    rw [hfind]
    have : (fun r => if r.id = action.existing_learning_id ∧ r.channel_id = channelId then
        { r with confidence := min (e.confidence + 1/20) 1,
                 sample_size := e.sample_size + 1,
                 version := e.version + 1,
                 last_reinforced_at := now } else r) e =
        { e with confidence := min (e.confidence + 1/20) 1,
                 sample_size := e.sample_size + 1,
                 version := e.version + 1,
                 last_reinforced_at := now } := by
      simp only [if_pos (show e.id = action.existing_learning_id ∧
        e.channel_id = channelId from ⟨heid, hech⟩)]
    rw [← this]
    exact List.mem_map_of_mem _ hmem
  · intro e hfind r hr hnot
    unfold processReinforce
    rw [hfind]
    have : (fun r2 => if r2.id = action.existing_learning_id ∧ r2.channel_id = channelId then
        { r2 with confidence := min (e.confidence + 1/20) 1,
                  sample_size := e.sample_size + 1,
                  version := e.version + 1,
                  last_reinforced_at := now } else r2) r = r := by
      simp only [if_neg hnot]
    rw [← this]
    exact List.mem_map_of_mem _ hr

/-- Witness for C3 at a concrete one-row table (the fetched list is exactly
the table's active rows, as in the caller): the row is reinforced in place. -/
theorem processReinforce_spec_witness :
    { c2Old with confidence := min (c2Old.confidence + 1/20) 1,
                 sample_size := c2Old.sample_size + 1,
                 version := c2Old.version + 1,
                 last_reinforced_at := 99 } ∈
      processReinforce ⟨1⟩ "C1" [c2Old] 99 [c2Old] :=
  (processReinforce_spec ⟨1⟩ "C1" [c2Old] 99 [c2Old]).2.2.1 c2Old rfl
    (List.mem_singleton_self _) rfl

/-! ### C8 — onboarding step monotonicity -/

/-- A completed onboarding record (step 8, complete), as produced by the
"done" transition. -/
def c8Done : CustomerRec :=
  ⟨8, true, some "C1", some "1.2", none, some "biz", none, none, none, none, none, "", 0⟩

/-- C8 counterexample: `finishOnboarding`'s voice-profile-extraction failure
path moves a record with `complete = true` from step 8 back to step 7 and
clears the completion flag — a code path that decreases the step of a
completed record, which the claim rules out. -/
theorem finishOnboarding_failure_steps_back :
    c8Done.onboarding_complete = true ∧ c8Done.onboarding_step = 8 ∧
    (finishOnboardingUpdate false c8Done).onboarding_step = 7 ∧
    (finishOnboardingUpdate false c8Done).onboarding_step < c8Done.onboarding_step ∧
    (finishOnboardingUpdate false c8Done).onboarding_complete = false := by
  refine ⟨rfl, rfl, rfl, by decide, rfl⟩

/-- C8 as amended: across `handleOnboardingMessage` and
`startOnboardingInThread` the step counter never decreases — each turn moves
it by 0 or 1, with 7 → 8 (and `complete := true`) on "done" — and a record
with `complete = true` is never modified; `finishOnboarding` leaves the
record untouched on success, and its extraction-failure path is the sole
transition out of the completed state, resetting the record to step 7 with
`complete = false` so the user can retry. -/
theorem onboarding_step_monotone
    (sanitize : String → String) (rec : CustomerRec) (channelId text : String)
    (threadTs postTs : Option String) (parentTs : String) :
    (rec.onboarding_complete = true →
      handleOnboardingMessage sanitize rec channelId text threadTs postTs =
        (rec, .not_onboarding)) ∧
    ((handleOnboardingMessage sanitize rec channelId text threadTs postTs).1.onboarding_step =
        rec.onboarding_step ∨
      (handleOnboardingMessage sanitize rec channelId text threadTs postTs).1.onboarding_step =
        rec.onboarding_step + 1) ∧
    rec.onboarding_step ≤
      (handleOnboardingMessage sanitize rec channelId text threadTs postTs).1.onboarding_step ∧
    (rec.onboarding_step = 7 → rec.onboarding_complete = false →
      String.mk (lowerTrim text) = "done" →
      (handleOnboardingMessage sanitize rec channelId text threadTs postTs).1.onboarding_step = 8 ∧
      (handleOnboardingMessage sanitize rec channelId text threadTs
          postTs).1.onboarding_complete = true) ∧
    rec.onboarding_step ≤ (startOnboardingInThread rec channelId parentTs).onboarding_step ∧
    finishOnboardingUpdate true rec = rec := by
  have hstep :
      (handleOnboardingMessage sanitize rec channelId text threadTs postTs).1.onboarding_step =
        rec.onboarding_step ∨
      (handleOnboardingMessage sanitize rec channelId text threadTs postTs).1.onboarding_step =
        rec.onboarding_step + 1 := by
    by_cases hc : rec.onboarding_complete = true
    · simp [handleOnboardingMessage, hc]
    · have hc2 : rec.onboarding_complete = false := Bool.eq_false_iff.mpr hc
      by_cases h0 : rec.onboarding_step = 0
      · simp [handleOnboardingMessage, hc2, h0]
      · by_cases h16 : 1 ≤ rec.onboarding_step ∧ rec.onboarding_step ≤ TOTAL_QUESTIONS
        · obtain ⟨h16a, h16b⟩ := h16
          have h16c : rec.onboarding_step ≤ 6 := h16b
          simp [handleOnboardingMessage, hc2, h0, h16a, h16c, TOTAL_QUESTIONS]
        · have h16u : ¬ (1 ≤ rec.onboarding_step ∧ rec.onboarding_step ≤ 6) := h16
          by_cases h7 : rec.onboarding_step = 7
          · by_cases hdone : String.mk (lowerTrim text) = "done"
            · simp [handleOnboardingMessage, hc2, h0, h16u, h7, hdone, TOTAL_QUESTIONS]
            · simp [handleOnboardingMessage, hc2, h0, h16u, h7, hdone, TOTAL_QUESTIONS]
          · simp [handleOnboardingMessage, hc2, h0, h16u, h7, TOTAL_QUESTIONS]
  refine ⟨?_, hstep, ?_, ?_, ?_, rfl⟩
  · intro hc
    simp [handleOnboardingMessage, hc]
  · rcases hstep with h | h <;> omega
  · intro h7 hnc hdone
    simp [handleOnboardingMessage, hnc, h7, hdone, TOTAL_QUESTIONS]
  · unfold startOnboardingInThread
    split_ifs <;> simp_all

/-! ### C9 — normalizer: allow-list, bot/subtype drops, parent timestamp -/

/-- C9: `normalizeEvent` returns exactly `null` for every event kind outside
the supported set and for every message event carrying a subtype or a bot
id; an accepted non-threaded message gets its own `ts` as `parentTs`, and a
threaded one the thread-root timestamp. -/
theorem normalizeEvent_spec (event : SlackEvent) (teamId botUserId : String) :
    (event.type ∉ ["message", "file_shared", "member_joined_channel"] →
      normalizeEvent event teamId botUserId = none) ∧
    (event.type = "message" → (event.subtype ≠ none ∨ event.bot_id ≠ none) →
      normalizeEvent event teamId botUserId = none) ∧
    (∀ ctx, normalizeEvent event teamId botUserId = some ctx →
      event.type = "message" → event.thread_ts = none → ctx.parentTs = some event.ts) ∧
    (∀ ctx t, normalizeEvent event teamId botUserId = some ctx →
      event.type = "message" → event.thread_ts = some t → ctx.parentTs = some t) := by
  refine ⟨?_, ?_, ?_, ?_⟩
  · intro hno
    simp only [List.mem_cons, List.not_mem_nil, or_false, not_or] at hno
    obtain ⟨h1, h2, h3⟩ := hno
    unfold normalizeEvent
    rw [if_neg h3, if_neg h2, if_neg h1]
  · intro hm hbs
    unfold normalizeEvent
    rw [if_neg (by rw [hm]; decide), if_neg (by rw [hm]; decide), if_pos hm, if_pos hbs]
  · intro ctx hctx hm hthread
    unfold normalizeEvent at hctx
    rw [if_neg (by rw [hm]; decide), if_neg (by rw [hm]; decide), if_pos hm] at hctx
    by_cases hbs : event.subtype ≠ none ∨ event.bot_id ≠ none
    · rw [if_pos hbs] at hctx
      exact absurd hctx (by simp)
    · rw [if_neg hbs] at hctx
      obtain rfl := (Option.some_inj.mp hctx).symm
      simp [hthread]
  · intro ctx t hctx hm hthread
    unfold normalizeEvent at hctx
    rw [if_neg (by rw [hm]; decide), if_neg (by rw [hm]; decide), if_pos hm] at hctx
    by_cases hbs : event.subtype ≠ none ∨ event.bot_id ≠ none
    · rw [if_pos hbs] at hctx
      exact absurd hctx (by simp)
    · rw [if_neg hbs] at hctx
      obtain rfl := (Option.some_inj.mp hctx).symm
      simp [hthread]

/-! ### C10 — `verifySlackRequest` throws on signature-length mismatch -/

theorem byteLen_append (a b : String) : byteLen (a ++ b) = byteLen a + byteLen b := by
  unfold byteLen
  rw [show (a ++ b).toList = a.toList ++ b.toList from String.data_append a b]
  rw [List.map_append, List.sum_append]

/-- C10 (refuting totality): a request whose signature header is absent (the
caller defaults it to `""`) reaches `crypto.timingSafeEqual` with buffers of
different lengths — the expected signature is always 67 bytes ("v0=" plus a
64-hex-char digest) — so `verifySlackRequest` raises
`ERR_CRYPTO_TIMING_SAFE_EQUAL_LENGTH` instead of returning `false`; the
`POST` handler does not catch it. -/
theorem verifySlack_throws_on_length_mismatch
    (hmacHex : String → String)
    (hdigest : byteLen (hmacHex "v0:1000000:") = 64) :
    verifySlackRequest hmacHex true 1000000 "" "1000000" "" =
      .error .timingSafeEqualLength := by
  unfold verifySlackRequest
  rw [if_neg (by simp)]
  rw [if_neg (by decide)]
  rw [if_pos ?hcond]
  case hcond =>
    rw [byteLen_append]
    have hb : hmacHex ("v0:" ++ "1000000" ++ ":" ++ "") = hmacHex "v0:1000000:" := rfl
    rw [hb, hdigest]
    decide

/-- A 64-char digest oracle for the C10 witness. -/
def c10Hmac : String → String := fun _ => String.mk (List.replicate 64 'a')

/-- Witness for C10 at a concrete digest function. -/
theorem verifySlack_throws_on_length_mismatch_witness :
    verifySlackRequest c10Hmac true 1000000 "" "1000000" "" =
      .error .timingSafeEqualLength :=
  verifySlack_throws_on_length_mismatch c10Hmac (by decide)

/-! ### C7 — what the quality gate touches -/

def c7Profile : VoiceProfile := ⟨[], []⟩

/-- A short status message (10 chars) that leaked a code fence. -/
def c7Short : GateMessage := ⟨"C1", "Hi ```x```", none⟩

/-- A long (210-char) clean message that lifts the result over the
substantive-length floor. -/
def c7Long : GateMessage := ⟨"C1", String.mk (List.replicate 210 'a'), none⟩

def c7Result : GAgentResult Unit := ⟨[c7Short, c7Long], [], false⟩

set_option maxRecDepth 8000 in
/-- C7 counterexample: a message of 200 characters or fewer is NOT always
returned unchanged — when some other message exceeds the floor, the
deterministic checks rewrite the short message too (its fence markers are
stripped). -/
theorem qualityGate_rewrites_short_message :
    c7Short.text.length ≤ 200 ∧
    (runQualityGate c7Result (some c7Profile)).messages.head? =
      some ⟨"C1", "Hi x", none⟩ ∧
    (⟨"C1", "Hi x", none⟩ : GateMessage) ≠ c7Short := by
  refine ⟨by decide, by decide, by decide⟩

/-- C7 as amended: with no voice profile, or with every message at or under
the 200-char floor, the gate passes the result through unchanged; otherwise
the deterministic checks run over all messages (short ones included), and
the only modification ever applied is the code-fence strip — every output
message is either the input message or the input message with
`stripFences` applied to its text; side effects and the learning flag always
pass through untouched. -/
theorem qualityGate_frame {ε : Type} (result : GAgentResult ε)
    (profile : Option VoiceProfile) :
    (profile = none → runQualityGate result profile = result) ∧
    ((∀ m ∈ result.messages, m.text.length ≤ 200) →
      runQualityGate result profile = result) ∧
    (runQualityGate result profile).sideEffects = result.sideEffects ∧
    (runQualityGate result profile).triggerLearning = result.triggerLearning ∧
    List.Forall₂ (fun a b => b = a ∨ b = { a with text := stripFences a.text })
      result.messages (runQualityGate result profile).messages := by
  have hrefl : List.Forall₂
      (fun (a b : GateMessage) => b = a ∨ b = { a with text := stripFences a.text })
      result.messages result.messages :=
    List.forall₂_same.mpr (fun a _ => Or.inl rfl)
  cases profile with
  | none =>
    exact ⟨fun _ => rfl, fun _ => rfl, rfl, rfl, hrefl⟩
  | some p =>
    by_cases hsub : (result.messages.filter (fun m => 200 < m.text.length)).length = 0
    · have hout : runQualityGate result (some p) = result := by
        unfold runQualityGate
        dsimp only
        rw [if_pos hsub]
      rw [hout]
      exact ⟨fun h => Option.noConfusion h, fun _ => rfl, rfl, rfl, hrefl⟩
    · have hvac : ¬ (∀ m ∈ result.messages, m.text.length ≤ 200) := by
        intro hall
        apply hsub
        rw [List.length_eq_zero, List.filter_eq_nil_iff]
        intro m hm
        simpa using hall m hm
      have hfixform : ∀ (_ : (runDeterministicChecks result p).autoFixed = true),
          (runDeterministicChecks result p).fixedMessages =
            some (result.messages.map (fun m =>
              if hasFence m.text then { m with text := stripFences m.text } else m)) := by
        intro hA
        unfold runDeterministicChecks at hA ⊢
        simp only at hA ⊢
        rw [if_pos hA]
      have hmapforall : List.Forall₂
          (fun (a b : GateMessage) => b = a ∨ b = { a with text := stripFences a.text })
          result.messages (result.messages.map (fun m =>
            if hasFence m.text then { m with text := stripFences m.text } else m)) := by
        rw [List.forall₂_map_right_iff]
        apply List.forall₂_same.mpr
        intro a _
        by_cases hf : hasFence a.text = true
        · rw [if_pos hf]
          exact Or.inr rfl
        · rw [if_neg hf]
          exact Or.inl rfl
      unfold runQualityGate
      dsimp only
      rw [if_neg hsub]
      by_cases hpass : ¬ (runDeterministicChecks result p).passed = true
      · rw [if_pos hpass]
        by_cases hAF : (runDeterministicChecks result p).autoFixed = true ∧
            (runDeterministicChecks result p).fixedMessages ≠ none
        · rw [if_pos hAF]
          rw [hfixform hAF.1]
          exact ⟨fun h => Option.noConfusion h, fun h => absurd h hvac, rfl, rfl, by
            simpa using hmapforall⟩
        · rw [if_neg hAF]
          exact ⟨fun h => Option.noConfusion h, fun h => absurd h hvac, rfl, rfl, hrefl⟩
      · rw [if_neg hpass]
        exact ⟨fun h => Option.noConfusion h, fun h => absurd h hvac, rfl, rfl, hrefl⟩

/-! ### Concrete witnesses for the universally quantified theorems -/

/-- An event of an unsupported kind for the C9 witness. -/
def c9Unknown : SlackEvent :=
  ⟨"reaction_added", "U", "C", "U", "C", none, "1.2", none, none, none, none⟩

/-- Witness for C9: an unsupported event kind is dropped. -/
theorem normalizeEvent_spec_witness :
    normalizeEvent c9Unknown "T" "B" = none :=
  (normalizeEvent_spec c9Unknown "T" "B").1 (by decide)

/-- A result whose only message is under the 200-char floor. -/
def c7AllShort : GAgentResult Unit := ⟨[⟨"C1", "ok", none⟩], [], true⟩

/-- Witness for C7's amended theorem: an all-short result passes through. -/
theorem qualityGate_frame_witness :
    runQualityGate c7AllShort (some c7Profile) = c7AllShort :=
  (qualityGate_frame c7AllShort (some c7Profile)).2.1 (by decide)

/-- A mid-interview record at step 7 for the C8 witness. -/
def c8Seven : CustomerRec :=
  ⟨7, false, some "C1", some "1.2", some "onboarding", some "b", some "p", some "t",
   some "d", some "pr", some "tn", "", 0⟩

/-- Witness for C8's amended theorem: "done" at step 7 moves to step 8 and
sets the completion flag. -/
theorem onboarding_step_monotone_witness :
    (handleOnboardingMessage id c8Seven "C1" "done" none none).1.onboarding_step = 8 ∧
    (handleOnboardingMessage id c8Seven "C1" "done" none none).1.onboarding_complete = true :=
  (onboarding_step_monotone id c8Seven "C1" "done" none none "1.2").2.2.2.1 rfl rfl (by decide)

end Understood
